import Mathlib

/-!
Verification of the MuskTracker statistical core against its specification.

The development shallowly embeds the feature pipeline
(`musktracker/features/__init__.py`), the model family
(`musktracker/models/{base,hawkes,negative_binomial,sarimax}.py`) and the
evaluator (`musktracker/evaluation/__init__.py`).

Modelling conventions:
* wall-clock times are integers counted in minutes (buckets live on a
  minute grid; an hourly bucket spans 60 minutes, a daily one 1440);
* numpy/pandas float arithmetic is idealised as real arithmetic, with
  `Option` used where the source produces `None`/`NaN`;
* the SQL store behind `get_db_session` is a list of rows; `ORDER BY`
  becomes `List.mergeSort`;
* Python dynamic typing is modelled explicitly (a small `PyVal` universe)
  only where the distinction is load-bearing, namely in `HawkesModel.fit`
  where `.total_seconds()` is applied to a plain float.
-/

namespace MuskTracker

/-- Bucket granularity, `'hourly'` or `'daily'` in the source. -/
inductive Granularity where
  | hourly
  | daily
deriving DecidableEq, Repr

/-- Width of one bucket in minutes (`timedelta(hours=1)` / `timedelta(days=1)`). -/
def Granularity.delta : Granularity → ℤ
  | .hourly => 60
  | .daily => 1440

/-- A raw tweet row: creation time (minutes) and soft-deletion flag. -/
structure RawTweet where
  created_at : ℤ
  is_deleted : Bool
deriving DecidableEq, Repr

/-- A `TimeBucket` row as stored by the feature engineer. -/
structure TimeBucket where
  bucket_start : ℤ
  bucket_end : ℤ
  granularity : Granularity
  tweet_count : ℕ
  computed_at : ℤ
deriving DecidableEq, Repr

/-- The tweet-count query inside `compute_time_buckets`: live tweets with
`current <= created_at < bucket_end`. -/
def tweetCountIn (tweets : List RawTweet) (lo hi : ℤ) : ℕ :=
  (tweets.filter fun tw =>
    decide (lo ≤ tw.created_at) && decide (tw.created_at < hi) && !tw.is_deleted).length

/-- Key of a stored bucket: `(bucket_start, granularity)`. -/
def TimeBucket.key (r : TimeBucket) : ℤ × Granularity :=
  (r.bucket_start, r.granularity)

/-- The `scalar_one_or_none` lookup for an existing bucket. -/
def findBucket (store : List TimeBucket) (b : ℤ) (g : Granularity) : Option TimeBucket :=
  store.find? fun r => decide (r.bucket_start = b) && decide (r.granularity = g)

/-- In-place update of the (unique) existing row with the given key:
`existing.tweet_count = count; existing.computed_at = now`. -/
def setBucketCount : List TimeBucket → ℤ → Granularity → ℕ → ℤ → List TimeBucket
  | [], _, _, _, _ => []
  | r :: rs, b, g, c, now =>
    if r.bucket_start = b ∧ r.granularity = g then
      { r with tweet_count := c, computed_at := now } :: rs
    else
      r :: setBucketCount rs b g c now

/-- The `while current < end_time` loop of `compute_time_buckets`: count the
tweets of the bucket at `current`, upsert the row, advance by one bucket.
Returns the updated store and the number of iterations (`bucket_count`). -/
def computeTimeBucketsAux (tweets : List RawTweet) (g : Granularity) (endT now : ℤ)
    (current : ℤ) (store : List TimeBucket) : List TimeBucket × ℕ :=
  if h : current < endT then
    let bend := current + g.delta
    let count := tweetCountIn tweets current bend
    let store1 :=
      match findBucket store current g with
      | some _ => setBucketCount store current g count now
      | none => store ++ [⟨current, bend, g, count, now⟩]
    let rest := computeTimeBucketsAux tweets g endT now bend store1
    (rest.1, rest.2 + 1)
  else
    (store, 0)
termination_by (endT - current).toNat
decreasing_by
  have hd : 0 < g.delta := by cases g <;> simp [Granularity.delta]
  omega

/-- `FeatureEngineer.compute_time_buckets(start_time, end_time, granularity)`
acting on an explicit store of rows. -/
def computeTimeBuckets (tweets : List RawTweet) (g : Granularity)
    (startT endT now : ℤ) (store : List TimeBucket) : List TimeBucket × ℕ :=
  computeTimeBucketsAux tweets g endT now startT store

/-- `FeatureEngineer.get_bucket_counts(start_time, end_time, granularity)`:
select rows with `start_time <= bucket_start < end_time` of the requested
granularity, ordered by `bucket_start`, projected to `(timestamp, count)`. -/
def getBucketCounts (store : List TimeBucket) (startT endT : ℤ) (g : Granularity) :
    List (ℤ × ℕ) :=
  (((store.filter fun r =>
      decide (startT ≤ r.bucket_start) && decide (r.bucket_start < endT) &&
        decide (r.granularity = g)).mergeSort
      fun a b => decide (a.bucket_start ≤ b.bucket_start)).map
    fun r => (r.bucket_start, r.tweet_count))

/-- The list of keys of a store. -/
def storeKeys (store : List TimeBucket) : List (ℤ × Granularity) :=
  store.map TimeBucket.key

/-- A store is well formed when no key occurs twice (the uniqueness the
`scalar_one_or_none` query relies on). -/
def NodupKeys (store : List TimeBucket) : Prop :=
  (storeKeys store).Nodup

/-- Count recorded for a key, through the same lookup the source uses. -/
def lookupCount (store : List TimeBucket) (b : ℤ) (g : Granularity) : Option ℕ :=
  (findBucket store b g).map TimeBucket.tweet_count

/-- `FeatureEngineer._get_lag_count`: exact-index lookup
`df.loc[ref_time - offset, "count"]`, `None` on `KeyError`.
The offset is given in minutes. -/
def getLagCount (df : List (ℤ × ℕ)) (refTime offset : ℤ) : Option ℕ :=
  (df.find? fun p => decide (p.1 = refTime - offset)).map Prod.snd

/-- The window selection `(df.index >= window_start) & (df.index < ref_time)`
shared by `_get_rolling_mean` and `_get_rolling_std`. -/
def rollingWindow (df : List (ℤ × ℕ)) (refTime offset : ℤ) : List (ℤ × ℕ) :=
  df.filter fun p => decide (refTime - offset ≤ p.1) && decide (p.1 < refTime)

/-- Arithmetic mean of a list of reals (`Series.mean`). -/
noncomputable def listMean (l : List ℝ) : ℝ := l.sum / l.length

/-- Sample standard deviation (`Series.std`, pandas default `ddof = 1`). -/
noncomputable def sampleStd (l : List ℝ) : ℝ :=
  Real.sqrt ((l.map fun x => (x - listMean l) ^ 2).sum / ((l.length : ℝ) - 1))

/-- `FeatureEngineer._get_rolling_mean`: `None` on an empty window. -/
noncomputable def getRollingMean (df : List (ℤ × ℕ)) (refTime offset : ℤ) : Option ℝ :=
  let w := rollingWindow df refTime offset
  if w = [] then none else some (listMean (w.map fun p => (p.2 : ℝ)))

/-- `FeatureEngineer._get_rolling_std`: `None` when the window holds fewer
than two observations. -/
noncomputable def getRollingStd (df : List (ℤ × ℕ)) (refTime offset : ℤ) : Option ℝ :=
  let w := rollingWindow df refTime offset
  if w = [] ∨ w.length < 2 then none
  else some (sampleStd (w.map fun p => (p.2 : ℝ)))

/-- The lag/rolling slice of a stored `Feature` row. -/
structure LagRollingFeatures where
  lag_1h : Option ℕ
  lag_6h : Option ℕ
  lag_12h : Option ℕ
  lag_24h : Option ℕ
  lag_7d : Option ℕ
  rolling_mean_24h : Option ℝ
  rolling_std_24h : Option ℝ
  rolling_mean_7d : Option ℝ
  rolling_std_7d : Option ℝ

/-- The lag/rolling portion of `FeatureEngineer.compute_features`: fetch the
hourly counts of `[reference_time - lookback_days, reference_time)` and build
the lag and rolling fields; `none` models the insufficient-data early return.
(The calendar and event-intensity fields do not read the bucket store and are
outside the no-look-ahead claim.) -/
noncomputable def computeLagRollingFeatures (store : List TimeBucket) (refTime : ℤ)
    (lookbackDays : ℤ) : Option LagRollingFeatures :=
  let df := getBucketCounts store (refTime - lookbackDays * 1440) refTime .hourly
  if df = [] then none
  else some
    { lag_1h := getLagCount df refTime 60
      lag_6h := getLagCount df refTime (6 * 60)
      lag_12h := getLagCount df refTime (12 * 60)
      lag_24h := getLagCount df refTime (24 * 60)
      lag_7d := getLagCount df refTime (7 * 24 * 60)
      rolling_mean_24h := getRollingMean df refTime (24 * 60)
      rolling_std_24h := getRollingStd df refTime (24 * 60)
      rolling_mean_7d := getRollingMean df refTime (7 * 24 * 60)
      rolling_std_7d := getRollingStd df refTime (7 * 24 * 60) }

/-- Result of `BaseModel.compute_metrics`; `mape = none` models `np.nan`. -/
structure Metrics where
  rmse : ℝ
  mae : ℝ
  mape : Option ℝ

/-- `BaseModel.compute_metrics(y_true, y_pred)`: root-mean-squared error,
mean absolute error, and the masked mean absolute percentage error. -/
noncomputable def computeMetrics (yTrue yPred : List ℝ) : Metrics :=
  let diffs := List.zipWith (fun a b => a - b) yTrue yPred
  let rmse := Real.sqrt ((diffs.map fun d => d ^ 2).sum / yTrue.length)
  let mae := (diffs.map fun d => |d|).sum / yTrue.length
  let masked := (yTrue.zip yPred).filter fun p => decide (0 < p.1)
  let mape :=
    if 0 < masked.length then
      some (listMean (masked.map fun p => |(p.1 - p.2) / p.1|) * 100)
    else none
  { rmse := rmse, mae := mae, mape := mape }

/-- Conditional intensity at time `t` given the positionally earlier events
`past`: the inner `for j in range(i)` loop of
`HawkesModel._negative_log_likelihood`. -/
noncomputable def hawkesIntensity (mu alpha beta : ℝ) (past : List ℝ) (t : ℝ) : ℝ :=
  mu + (past.map fun tj => alpha * beta * Real.exp (-beta * (t - tj))).sum

/-- The first loop of `_negative_log_likelihood`: accumulate `log λ(t_i)`
left to right, aborting (the early `return 1e10`) as soon as some intensity
is non-positive. -/
noncomputable def hawkesLogSum (mu alpha beta : ℝ) : List ℝ → List ℝ → Option ℝ
  | _, [] => some 0
  | past, t :: rest =>
    let lam := hawkesIntensity mu alpha beta past t
    if lam ≤ 0 then none
    else (hawkesLogSum mu alpha beta (past ++ [t]) rest).map fun s => Real.log lam + s

/-- The second loop of `_negative_log_likelihood`: the quantity the source
subtracts as the "integral of intensity", a sum over all ordered pairs
`j < i` of events. -/
noncomputable def hawkesPairSum (alpha beta : ℝ) : List ℝ → List ℝ → ℝ
  | _, [] => 0
  | past, t :: rest =>
    (past.map fun tj => alpha * (1 - Real.exp (-beta * (t - tj)))).sum +
      hawkesPairSum alpha beta (past ++ [t]) rest

/-- `HawkesModel._negative_log_likelihood(params, events)` over ideal reals. -/
noncomputable def negativeLogLikelihood (mu alpha beta : ℝ) (events : List ℝ) : ℝ :=
  if mu ≤ 0 ∨ alpha < 0 ∨ beta ≤ 0 ∨ alpha ≥ beta then 1e10
  else
    match hawkesLogSum mu alpha beta [] events with
    | none => 1e10
    | some s =>
      -(s - (mu * (events.getLastD 0 - events.headD 0) +
        hawkesPairSum alpha beta [] events))

/-- Modelled from the claim wording: the closed-form compensator
`mu * (t_n - t_1) + Σ_j alpha * (1 - exp (-beta * (t_n - t_j)))` that the
specification asserts the code subtracts. -/
noncomputable def claimedIntegral (mu alpha beta : ℝ) (events : List ℝ) : ℝ :=
  mu * (events.getLastD 0 - events.headD 0) +
    (events.map fun tj => alpha * (1 - Real.exp (-beta * (events.getLastD 0 - tj)))).sum

/-- Total sum of log-intensities (no early exit); used to phrase the
claimed identity for feasible parameters. -/
noncomputable def hawkesLogSumTotal (mu alpha beta : ℝ) : List ℝ → List ℝ → ℝ
  | _, [] => 0
  | past, t :: rest =>
    Real.log (hawkesIntensity mu alpha beta past t) +
      hawkesLogSumTotal mu alpha beta (past ++ [t]) rest

/-- Modelled from the claim wording: the negative log-likelihood value the
specification asserts for feasible parameters, with the single-sum
closed-form integral. -/
noncomputable def claimedNegLogLikelihood (mu alpha beta : ℝ) (events : List ℝ) : ℝ :=
  -(hawkesLogSumTotal mu alpha beta [] events - claimedIntegral mu alpha beta events)

/-- Failures surfaced by the embedded Python code. -/
inductive PyError where
  | runtimeError (msg : String)
  | valueError (msg : String)
  | attributeError (msg : String)
deriving DecidableEq, Repr

/-- Mutable state of a `HawkesModel` instance (real-valued view). -/
structure HawkesState where
  is_fitted : Bool
  baseline : ℝ
  alpha : ℝ
  decay : ℝ

/-- `HawkesModel.__init__(decay)`. -/
def HawkesState.init (decay : ℝ) : HawkesState :=
  { is_fitted := false, baseline := 0, alpha := 0, decay := decay }

/-- `HawkesModel.predict(timestamps)`. -/
noncomputable def hawkesPredict (st : HawkesState) (timestamps : List ℝ) :
    Except PyError (List ℝ × List ℝ × List ℝ) :=
  if !st.is_fitted then
    .error (.runtimeError "Model must be fitted before prediction")
  else
    let predictions := List.replicate timestamps.length st.baseline
    let excitation := if 0 < st.decay then st.alpha / st.decay else 0
    let variance := st.baseline * (1 + excitation)
    let stdError := Real.sqrt variance
    let lower := (predictions.map fun p => p - 1.96 * stdError).map fun x => max x 0
    let upper := predictions.map fun p => p + 1.96 * stdError
    .ok (predictions, lower, upper)

/-- Mutable state of a `NegativeBinomialModel`; the statsmodels results
object is abstracted as a value of type `R`. -/
structure NBState (R : Type) where
  is_fitted : Bool
  result : Option R
  alpha : ℝ

/-- `NegativeBinomialModel.__init__()`. -/
def NBState.init (R : Type) : NBState R :=
  { is_fitted := false, result := none, alpha := 1 }

/-- `NegativeBinomialModel.predict(timestamps)`; `runPredict` abstracts
`self.result.predict(X)` together with the design-matrix construction. -/
noncomputable def nbPredict {R : Type} (runPredict : R → List ℝ → List ℝ)
    (st : NBState R) (timestamps : List ℝ) :
    Except PyError (List ℝ × List ℝ × List ℝ) :=
  match st.is_fitted, st.result with
  | true, some r =>
    let predictions := runPredict r timestamps
    let stdError := predictions.map fun p => Real.sqrt (p + st.alpha * p ^ 2)
    let lower :=
      (List.zipWith (fun p s => p - 1.96 * s) predictions stdError).map fun x => max x 0
    let upper := List.zipWith (fun p s => p + 1.96 * s) predictions stdError
    .ok (predictions, lower, upper)
  | _, _ => .error (.runtimeError "Model must be fitted before prediction")

/-- Mutable state of a `SARIMAXModel`; the statsmodels results object is
abstracted as a value of type `R`. -/
structure SARIMAXState (R : Type) where
  is_fitted : Bool
  result : Option R

/-- `SARIMAXModel.__init__(order, seasonal_order)` (orders omitted: they do
not influence the not-fitted guard). -/
def SARIMAXState.init (R : Type) : SARIMAXState R :=
  { is_fitted := false, result := none }

/-- `SARIMAXModel.predict(timestamps)`; `forecast` abstracts
`self.result.get_forecast(steps)` returning mean, lower and upper arrays. -/
def sarimaxPredict {R : Type} (forecast : R → ℕ → List ℝ × List ℝ × List ℝ)
    (st : SARIMAXState R) (timestamps : List ℝ) :
    Except PyError (List ℝ × List ℝ × List ℝ) :=
  match st.is_fitted, st.result with
  | true, some r =>
    let f := forecast r timestamps.length
    .ok (f.1.map (fun x => max x 0), f.2.1.map (fun x => max x 0),
      f.2.2.map (fun x => max x 0))
  | _, _ => .error (.runtimeError "Model must be fitted before prediction")

/-- A Python value as handled by `HawkesModel.fit`: a `datetime`, a
`timedelta`, or a plain float (seconds resp. dimensionless, as rationals). -/
inductive PyVal where
  | dt (seconds : ℚ)
  | td (seconds : ℚ)
  | float (val : ℚ)
deriving DecidableEq, Repr

/-- Python subtraction on these values: `datetime - datetime` yields a
`timedelta`; numeric subtraction stays a float; mixed cases are a
`TypeError`. -/
def pySub : PyVal → PyVal → Except PyError PyVal
  | .dt a, .dt b => .ok (.td (a - b))
  | .td a, .td b => .ok (.td (a - b))
  | .float a, .float b => .ok (.float (a - b))
  | _, _ => .error (.runtimeError "unsupported operand types for subtraction")

/-- `x.total_seconds()`: defined on `timedelta` only; on any other value
CPython raises `AttributeError`. -/
def pyTotalSeconds : PyVal → Except PyError ℚ
  | .td q => .ok q
  | .dt _ => .error (.attributeError "datetime object has no attribute total_seconds")
  | .float _ => .error (.attributeError "float object has no attribute total_seconds")

/-- `HawkesModel._counts_to_events(timestamps, counts)`: spread each
bucket's `count` events uniformly across the hour (offsets `i / count * 3600`
from the bucket's delta), sort, and return them — as plain floats. -/
def countsToEvents (timestamps : List PyVal) (counts : List ℕ) :
    Except PyError (List PyVal) := do
  let baseTime := timestamps.headD (.dt 0)
  let eventLists ← (timestamps.zip counts).mapM fun p => do
    let delta ← pyTotalSeconds (← pySub p.1 baseTime)
    if 0 < p.2 then
      pure ((List.range p.2).map fun i => delta + (i : ℚ) / (p.2 : ℚ) * 3600)
    else
      pure ([] : List ℚ)
  pure ((eventLists.flatten.mergeSort fun a b => decide (a ≤ b)).map .float)

/-- Outcome of `scipy.optimize.minimize`. -/
structure OptResult where
  success : Bool
  x : ℚ × ℚ × ℚ

/-- Python-level state mutated by `HawkesModel.fit`. -/
structure HawkesFitState where
  is_fitted : Bool
  baseline : ℚ
  alpha : ℚ
  decay : ℚ
  hyperparameters : List (String × ℚ)
deriving DecidableEq, Repr

/-- `HawkesModel.fit(timestamps, counts)`: the optimizer is abstracted by
`minimize` (initial parameters and event times in). The embedding keeps
Python's dynamic typing for the `(e - events[0]).total_seconds()`
conversion step, where `e` ranges over the floats `_counts_to_events`
produced. -/
def hawkesFit (minimize : ℚ × ℚ × ℚ → List ℚ → OptResult)
    (timestamps : List PyVal) (counts : List ℕ) (st : HawkesFitState) :
    Except PyError HawkesFitState := do
  let events ← countsToEvents timestamps counts
  if events.length < 10 then
    throw (.valueError "Insufficient events for Hawkes fitting, need at least 10")
  else
    let eventsSec ← events.mapM fun e => do
      pyTotalSeconds (← pySub e (events.headD (.float 0)))
    let meanRate := (eventsSec.length : ℚ) / (eventsSec.getLastD 0 - eventsSec.headD 0)
    let result := minimize (meanRate * 0.5, meanRate * 0.3, 1) eventsSec
    let st1 :=
      if result.success then
        { st with baseline := result.x.1, alpha := result.x.2.1, decay := result.x.2.2 }
      else
        { st with baseline := meanRate * 0.6, alpha := meanRate * 0.2, decay := 1 }
    let st2 := { st1 with is_fitted := true }
    pure { st2 with hyperparameters :=
      [("baseline", st2.baseline), ("alpha", st2.alpha), ("decay", st2.decay),
        ("n_events", (events.length : ℚ)),
        ("branching_ratio", if 0 < st2.decay then st2.alpha / st2.decay else 0)] }

/-- Python `int()` applied to a float: truncation toward zero. -/
def pyTrunc (q : ℚ) : ℤ := if 0 ≤ q then ⌊q⌋ else ⌈q⌉

/-- One completed backtest window row. -/
structure WindowResult where
  window : ℕ
  train_start : ℤ
  test_start : ℤ
  test_end : ℤ
  rmse : ℝ
  mae : ℝ
  mape : Option ℝ

/-- The summary dictionary returned by `rolling_backtest`; `none` models a
`np.nan` aggregate. The std aggregates of the completed branch are omitted
from the model. -/
structure BacktestSummary where
  modelName : String
  n_windows_completed : ℕ
  mean_rmse : Option ℝ
  mean_mae : Option ℝ
  mean_mape : Option ℝ
  window_results : List WindowResult

/-- Outcome of a single backtest window: the two sparsity guards followed
by the `try: fit / predict / compute_metrics` block whose combined result
is abstracted by `modelRun` (a raised exception is `Except.error`). -/
def windowOutcome (store : List TimeBucket)
    (modelRun : List (ℤ × ℕ) → List (ℤ × ℕ) → Except String (ℝ × ℝ × Option ℝ))
    (startDate step : ℤ) (trainDays testHours : ℕ) (i : ℕ) : Option WindowResult :=
  let testStart := startDate + (i : ℤ) * step * 60
  let trainStart := testStart - (trainDays : ℤ) * 1440
  let testEnd := testStart + (testHours : ℤ) * 60
  let trainDf := getBucketCounts store trainStart testStart .hourly
  if trainDf = [] ∨ trainDf.length < 24 then none
  else
    let testDf := getBucketCounts store testStart testEnd .hourly
    if testDf = [] then none
    else
      match modelRun trainDf testDf with
      | .error _ => none
      | .ok m => some ⟨i + 1, trainStart, testStart, testEnd, m.1, m.2.1, m.2.2⟩

/-- The `for i in range(n_windows)` loop of `rolling_backtest`: `break` once
`test_end > end_date`, `continue` on a sparsity guard or a caught window
error. `i` is the next window index, the second argument the number of
indices still to try. -/
def backtestLoop (store : List TimeBucket)
    (modelRun : List (ℤ × ℕ) → List (ℤ × ℕ) → Except String (ℝ × ℝ × Option ℝ))
    (startDate endDate step : ℤ) (trainDays testHours : ℕ) :
    ℕ → ℕ → List WindowResult
  | _, 0 => []
  | i, remaining + 1 =>
    let testStart := startDate + (i : ℤ) * step * 60
    let trainStart := testStart - (trainDays : ℤ) * 1440
    let testEnd := testStart + (testHours : ℤ) * 60
    if endDate < testEnd then []
    else
      let trainDf := getBucketCounts store trainStart testStart .hourly
      if trainDf = [] ∨ trainDf.length < 24 then
        backtestLoop store modelRun startDate endDate step trainDays testHours (i + 1) remaining
      else
        let testDf := getBucketCounts store testStart testEnd .hourly
        if testDf = [] then
          backtestLoop store modelRun startDate endDate step trainDays testHours (i + 1) remaining
        else
          match modelRun trainDf testDf with
          | .error _ =>
            backtestLoop store modelRun startDate endDate step trainDays testHours (i + 1) remaining
          | .ok m =>
            ⟨i + 1, trainStart, testStart, testEnd, m.1, m.2.1, m.2.2⟩ ::
              backtestLoop store modelRun startDate endDate step trainDays testHours (i + 1) remaining

/-- `ModelEvaluator.rolling_backtest(model, start_date, end_date, n_windows,
train_days, test_hours)`. Aggregation mirrors pandas `mean()`: the mape
mean skips `NaN` windows and is itself `NaN` when nothing remains. -/
noncomputable def rollingBacktest (store : List TimeBucket)
    (modelRun : List (ℤ × ℕ) → List (ℤ × ℕ) → Except String (ℝ × ℝ × Option ℝ))
    (modelName : String) (startDate endDate : ℤ)
    (nWindows trainDays testHours : ℕ) : BacktestSummary :=
  let totalPeriod : ℚ := ((endDate - startDate : ℤ) : ℚ) / 60
  let step := pyTrunc (totalPeriod / (nWindows : ℚ))
  let results := backtestLoop store modelRun startDate endDate step trainDays testHours 0 nWindows
  if results.isEmpty then
    { modelName := modelName, n_windows_completed := 0,
      mean_rmse := none, mean_mae := none, mean_mape := none, window_results := [] }
  else
    let mapes := results.filterMap WindowResult.mape
    { modelName := modelName
      n_windows_completed := results.length
      mean_rmse := some (listMean (results.map WindowResult.rmse))
      mean_mae := some (listMean (results.map WindowResult.mae))
      mean_mape := if mapes.isEmpty then none else some (listMean mapes)
      window_results := results }

/-- `Series.rolling(window_hours, min_periods=24)` slice ending at row `i`. -/
def rollingSlice (counts : List ℝ) (w i : ℕ) : List ℝ :=
  (counts.take (i + 1)).drop (i + 1 - w)

/-- Rolling-mean column cell of `detect_regime_shift`, for a rolling window
that passed pandas' `min_periods <= window` validation (`24 ≤ w`): a value
is emitted once the window holds at least 24 observations. The validation
failure for `w < 24` is a `ValueError` raised at the `.rolling(...)` call,
modelled in `detectRegimeShift`, so these cells are never consulted there. -/
noncomputable def rollingMeanAt (counts : List ℝ) (w i : ℕ) : Option ℝ :=
  let s := rollingSlice counts w i
  if 24 ≤ s.length then some (listMean s) else none

/-- Rolling-std column cell of `detect_regime_shift`; same validation
proviso as `rollingMeanAt`. -/
noncomputable def rollingStdAt (counts : List ℝ) (w i : ℕ) : Option ℝ :=
  let s := rollingSlice counts w i
  if 24 ≤ s.length then some (sampleStd s) else none

/-- A pandas float cell of the `variance_ratio` column: `NaN`, `+inf`
(positive std divided by zero std) or an ordinary real. -/
inductive FloatVal where
  | nan
  | posInf
  | val (x : ℝ)

/-- `df["rolling_std"] / df["rolling_std"].shift(window_hours)` at row `i`,
with IEEE division semantics on the nonnegative stds. -/
noncomputable def varianceRatioAt (counts : List ℝ) (w i : ℕ) : FloatVal :=
  match rollingStdAt counts w i, if w ≤ i then rollingStdAt counts w (i - w) else none with
  | some cur, some prior =>
    if prior = 0 then (if cur = 0 then .nan else .posInf) else .val (cur / prior)
  | _, _ => .nan

/-- A detected regime shift row. -/
structure RegimeShift where
  timestamp : ℤ
  variance_ratio : FloatVal
  rolling_mean : Option ℝ
  rolling_std : Option ℝ

/-- The per-row test of the `for idx, row in df.iterrows()` loop:
`pd.notna(ratio) and (ratio > 1 + θ or ratio < 1 / (1 + θ))`. -/
noncomputable def ratioFlag (θ : ℝ) : FloatVal → Bool
  | .nan => false
  | .posInf => true
  | .val x => decide (1 + θ < x) || decide (x < 1 / (1 + θ))

/-- The row loop of `detect_regime_shift`, collecting flagged rows. -/
noncomputable def shiftRows (θ : ℝ) : List (ℤ × FloatVal × Option ℝ × Option ℝ) → List RegimeShift
  | [] => []
  | (t, r, m, s) :: rest =>
    if ratioFlag θ r then ⟨t, r, m, s⟩ :: shiftRows θ rest else shiftRows θ rest

/-- `ModelEvaluator.detect_regime_shift(start_date, end_date, window_hours,
threshold_std)`. The early length guard precedes the rolling construction;
building `df["count"].rolling(window=window_hours, min_periods=24)` then
raises pandas' `ValueError` whenever `min_periods = 24` exceeds the
window, before any column value is produced. -/
noncomputable def detectRegimeShift (store : List TimeBucket) (startDate endDate : ℤ)
    (windowHours : ℕ) (thresholdStd : ℝ) : Except PyError (List RegimeShift) :=
  let df := getBucketCounts store startDate endDate .hourly
  if df = [] ∨ df.length < windowHours then .ok []
  else if windowHours < 24 then
    .error (.valueError "min_periods 24 must be <= window")
  else
    let counts := df.map fun p => (p.2 : ℝ)
    .ok (shiftRows thresholdStd ((List.range df.length).map fun i =>
      ((df.getD i (0, 0)).1, varianceRatioAt counts windowHours i,
        rollingMeanAt counts windowHours i, rollingStdAt counts windowHours i)))

/-- Modelled from the claim wording: the ratio strictly exceeds the cutoff
(`+inf` exceeds everything, `NaN` nothing). -/
def FloatVal.Exceeds : FloatVal → ℝ → Prop
  | .nan, _ => False
  | .posInf, _ => True
  | .val x, c => c < x

/-- Modelled from the claim wording: the ratio falls strictly below the
cutoff (`+inf` and `NaN` never do). -/
def FloatVal.Below : FloatVal → ℝ → Prop
  | .nan, _ => False
  | .posInf, _ => False
  | .val x, c => x < c

/-! ## Theorems -/

theorem filter_range_decide (store : List TimeBucket) (startT endT : ℤ) (g : Granularity) :
    (store.filter fun r =>
        decide (startT ≤ r.bucket_start ∧ r.bucket_start < endT ∧ r.granularity = g)) =
      store.filter fun r =>
        decide (startT ≤ r.bucket_start) && decide (r.bucket_start < endT) &&
          decide (r.granularity = g) := by
  apply List.filter_congr
  intro r _
  simp [Bool.decide_and, Bool.and_assoc]

/-- Claim C10: `get_bucket_counts` returns exactly one row per stored bucket
with `start_time <= bucket_start < end_time` of the requested granularity
(a permutation of the filtered projection, so multiplicity is preserved and
an empty selection yields the empty frame), ordered by ascending timestamp. -/
theorem get_bucket_counts_sorted (store : List TimeBucket) (startT endT : ℤ) (g : Granularity) :
    (getBucketCounts store startT endT g).Pairwise (fun a b => a.1 ≤ b.1) ∧
      (getBucketCounts store startT endT g).Perm
        ((store.filter fun r =>
            decide (startT ≤ r.bucket_start ∧ r.bucket_start < endT ∧ r.granularity = g)).map
          fun r => (r.bucket_start, r.tweet_count)) := by
  rw [filter_range_decide]
  constructor
  · rw [getBucketCounts, List.pairwise_map]
    have hs : (List.mergeSort
        (store.filter fun r =>
          decide (startT ≤ r.bucket_start) && decide (r.bucket_start < endT) &&
            decide (r.granularity = g))
        fun a b => decide (a.bucket_start ≤ b.bucket_start)).Pairwise
          (fun a b => decide (a.bucket_start ≤ b.bucket_start) = true) := by
      apply List.sorted_mergeSort
      · intro a b c hab hbc
        simp only [decide_eq_true_eq] at *
        omega
      · intro a b
        simp [Int.le_total]
    exact hs.imp fun h => by simpa using h
  · rw [getBucketCounts]
    exact (List.mergeSort_perm _ _).map _

/-- Claim C1: the lag and rolling features computed for `reference_time`
depend only on bucket observations timestamped strictly before
`reference_time`: inserting rows timestamped at or after `reference_time`
anywhere in the store leaves the computed features unchanged. -/
theorem features_no_look_ahead (store1 extra store2 : List TimeBucket)
    (refTime lookbackDays : ℤ) (hextra : ∀ r ∈ extra, refTime ≤ r.bucket_start) :
    computeLagRollingFeatures (store1 ++ extra ++ store2) refTime lookbackDays =
      computeLagRollingFeatures (store1 ++ store2) refTime lookbackDays := by
  have hdf : getBucketCounts (store1 ++ extra ++ store2) (refTime - lookbackDays * 1440)
      refTime .hourly =
      getBucketCounts (store1 ++ store2) (refTime - lookbackDays * 1440) refTime .hourly := by
    rw [getBucketCounts, getBucketCounts, List.filter_append, List.filter_append,
      List.filter_append]
    have hnil : (extra.filter fun r =>
        decide (refTime - lookbackDays * 1440 ≤ r.bucket_start) &&
          decide (r.bucket_start < refTime) && decide (r.granularity = Granularity.hourly)) =
        [] := by
      rw [List.filter_eq_nil_iff]
      intro r hr
      have := hextra r hr
      simp only [Bool.and_eq_true, decide_eq_true_eq, not_and]
      intro _ hlt
      omega
    rw [hnil, List.append_nil]
  rw [computeLagRollingFeatures, computeLagRollingFeatures, hdf]

theorem features_no_look_ahead_witness :
    (∀ r ∈ [TimeBucket.mk 60 120 Granularity.hourly 7 0], (60 : ℤ) ≤ r.bucket_start) ∧
      computeLagRollingFeatures
          ([TimeBucket.mk 0 60 Granularity.hourly 5 0] ++
            [TimeBucket.mk 60 120 Granularity.hourly 7 0] ++ []) 60 1 =
        computeLagRollingFeatures ([TimeBucket.mk 0 60 Granularity.hourly 5 0] ++ []) 60 1 :=
  ⟨by decide, features_no_look_ahead _ _ _ 60 1 (by decide)⟩

/-- Claim C4: for each of the three model variants, calling `predict` on an
instance whose `fit` has never completed (so `is_fitted` is still false)
raises the not-fitted `RuntimeError` and returns no prediction arrays. -/
theorem predict_before_fit_raises (R S : Type) (runPredict : R → List ℝ → List ℝ)
    (forecast : S → ℕ → List ℝ × List ℝ × List ℝ)
    (hs : HawkesState) (ns : NBState R) (ss : SARIMAXState S)
    (ts1 ts2 ts3 : List ℝ)
    (h1 : hs.is_fitted = false) (h2 : ns.is_fitted = false) (h3 : ss.is_fitted = false) :
    hawkesPredict hs ts1 = .error (.runtimeError "Model must be fitted before prediction") ∧
      nbPredict runPredict ns ts2 =
        .error (.runtimeError "Model must be fitted before prediction") ∧
      sarimaxPredict forecast ss ts3 =
        .error (.runtimeError "Model must be fitted before prediction") := by
  refine ⟨?_, ?_, ?_⟩
  · simp [hawkesPredict, h1]
  · obtain ⟨f, res, a⟩ := ns
    simp only at h2
    subst h2
    cases res <;> rfl
  · obtain ⟨f, res⟩ := ss
    simp only at h3
    subst h3
    cases res <;> rfl

theorem predict_before_fit_raises_witness :
    hawkesPredict (HawkesState.init 1) [] =
        .error (.runtimeError "Model must be fitted before prediction") ∧
      nbPredict (fun (_ : Unit) (_ : List ℝ) => ([] : List ℝ)) (NBState.init Unit) [] =
        .error (.runtimeError "Model must be fitted before prediction") ∧
      sarimaxPredict (fun (_ : Unit) (_ : ℕ) => (([] : List ℝ), ([] : List ℝ), ([] : List ℝ)))
          (SARIMAXState.init Unit) [] =
        .error (.runtimeError "Model must be fitted before prediction") :=
  predict_before_fit_raises Unit Unit _ _ _ _ _ [] [] [] rfl rfl rfl

/-- Claim C8: on a fitted instance (any state with `is_fitted` set, which
`fit` always produces with a positive decay), `predict` returns the fitted
baseline intensity repeated at every requested timestamp, with 95% bands
`baseline ± 1.96 * sqrt (baseline * (1 + alpha / decay))` and the lower
band clamped at 0. -/
theorem hawkes_predict_formula (st : HawkesState) (timestamps : List ℝ)
    (hfit : st.is_fitted = true) (hdecay : 0 < st.decay) :
    hawkesPredict st timestamps =
      .ok (List.replicate timestamps.length st.baseline,
        List.replicate timestamps.length
          (max (st.baseline - 1.96 * Real.sqrt (st.baseline * (1 + st.alpha / st.decay))) 0),
        List.replicate timestamps.length
          (st.baseline + 1.96 * Real.sqrt (st.baseline * (1 + st.alpha / st.decay)))) := by
  simp [hawkesPredict, hfit, if_pos hdecay, List.map_replicate]

theorem except_bind_ok {ε α β : Type} (a : α) (k : α → Except ε β) :
    (Except.ok a >>= k) = k a := rfl

theorem except_bind_error {ε α β : Type} (e : ε) (k : α → Except ε β) :
    ((Except.error e : Except ε α) >>= k) = .error e := rfl

theorem hawkesFit_error_on_float_events
    (minimize : ℚ × ℚ × ℚ → List ℚ → OptResult) (st : HawkesFitState)
    (timestamps : List PyVal) (counts : List ℕ) (l : List ℚ)
    (hev : countsToEvents timestamps counts = .ok (l.map PyVal.float))
    (hlen : 10 ≤ l.length) :
    hawkesFit minimize timestamps counts st =
      .error (.attributeError "float object has no attribute total_seconds") := by
  obtain ⟨x, xs, rfl⟩ : ∃ x xs, l = x :: xs := by
    cases l with
    | nil => simp at hlen
    | cons x xs => exact ⟨x, xs, rfl⟩
  simp only [hawkesFit, hev, except_bind_ok]
  simp only [List.map_cons, List.headD_cons, List.mapM_cons,
    pySub, pyTotalSeconds, except_bind_ok, except_bind_error]
  rw [if_neg]
  simpa using hlen

/-- Claim C2: contrary to the claim, `HawkesModel.fit` cannot reach the
optimizer at all: `_counts_to_events` already returns event times as plain
float seconds, and `fit` then evaluates `(e - events[0]).total_seconds()`
on those floats, raising `AttributeError` for every input with at least 10
synthetic events — here at the single bucket `counts = [10]`. -/
theorem hawkes_fit_total_seconds_failure
    (minimize : ℚ × ℚ × ℚ → List ℚ → OptResult) (st : HawkesFitState) :
    hawkesFit minimize [PyVal.dt 0] [10] st =
      .error (.attributeError "float object has no attribute total_seconds") := by
  have h1 : countsToEvents [PyVal.dt 0] [10] =
      .ok ((List.mergeSort
          ((List.range 10).map fun i : ℕ => ((0 : ℚ) - 0) + (i : ℚ) / ((10 : ℕ) : ℚ) * 3600)
          fun a b => decide (a ≤ b)).map PyVal.float) := by rfl
  apply hawkesFit_error_on_float_events minimize st _ _ _ h1
  simp

theorem hawkes_predict_formula_witness :
    hawkesPredict ⟨true, 2, 1, 1⟩ [0] =
      .ok (List.replicate 1 (2 : ℝ),
        List.replicate 1 (max ((2 : ℝ) - 1.96 * Real.sqrt (2 * (1 + 1 / 1))) 0),
        List.replicate 1 ((2 : ℝ) + 1.96 * Real.sqrt (2 * (1 + 1 / 1)))) :=
  hawkes_predict_formula ⟨true, 2, 1, 1⟩ [0] rfl (by norm_num)

theorem keyPred_true {b : ℤ} {g : Granularity} (r : TimeBucket)
    (h1 : r.bucket_start = b) (h2 : r.granularity = g) :
    (decide (r.bucket_start = b) && decide (r.granularity = g)) = true := by
  simp [h1, h2]

theorem keyPred_false {b : ℤ} {g : Granularity} (r : TimeBucket)
    (h : ¬(r.bucket_start = b ∧ r.granularity = g)) :
    (decide (r.bucket_start = b) && decide (r.granularity = g)) = false := by
  rcases not_and_or.mp h with h1 | h1 <;> simp [h1]

theorem findBucket_cons (r : TimeBucket) (rs : List TimeBucket) (b : ℤ) (g : Granularity) :
    findBucket (r :: rs) b g =
      if r.bucket_start = b ∧ r.granularity = g then some r else findBucket rs b g := by
  by_cases h : r.bucket_start = b ∧ r.granularity = g
  · rw [if_pos h]
    simp [findBucket, h.1, h.2]
  · rw [if_neg h]
    simp [findBucket, keyPred_false r h]

theorem findBucket_setBucketCount_same (store : List TimeBucket) (b : ℤ) (g : Granularity)
    (c : ℕ) (now : ℤ) :
    findBucket (setBucketCount store b g c now) b g =
      (findBucket store b g).map fun r => { r with tweet_count := c, computed_at := now } := by
  induction store with
  | nil => rfl
  | cons r rs ih =>
    by_cases h : r.bucket_start = b ∧ r.granularity = g
    · rw [setBucketCount, if_pos h, findBucket_cons, findBucket_cons, if_pos h, if_pos h]
      rfl
    · rw [setBucketCount, if_neg h, findBucket_cons, findBucket_cons, if_neg h, if_neg h]
      exact ih

theorem findBucket_setBucketCount_other (store : List TimeBucket) (b0 : ℤ) (g0 : Granularity)
    (c : ℕ) (now : ℤ) (b : ℤ) (g : Granularity) (h : ¬(b = b0 ∧ g = g0)) :
    findBucket (setBucketCount store b0 g0 c now) b g = findBucket store b g := by
  induction store with
  | nil => rfl
  | cons r rs ih =>
    by_cases hr : r.bucket_start = b0 ∧ r.granularity = g0
    · have hne : ¬(r.bucket_start = b ∧ r.granularity = g) := by
        rintro ⟨h1, h2⟩
        exact h ⟨h1.symm.trans hr.1, h2.symm.trans hr.2⟩
      rw [setBucketCount, if_pos hr, findBucket_cons, findBucket_cons, if_neg hne, if_neg hne]
    · rw [setBucketCount, if_neg hr, findBucket_cons, findBucket_cons]
      by_cases hc : r.bucket_start = b ∧ r.granularity = g
      · rw [if_pos hc, if_pos hc]
      · rw [if_neg hc, if_neg hc]
        exact ih

theorem findBucket_append (store1 store2 : List TimeBucket) (b : ℤ) (g : Granularity) :
    findBucket (store1 ++ store2) b g =
      (findBucket store1 b g).or (findBucket store2 b g) := by
  simp [findBucket, List.find?_append]

theorem findBucket_singleton (r : TimeBucket) (b : ℤ) (g : Granularity) :
    findBucket [r] b g =
      if r.bucket_start = b ∧ r.granularity = g then some r else none := by
  rw [findBucket_cons]
  rfl

theorem findBucket_none_iff (store : List TimeBucket) (b : ℤ) (g : Granularity) :
    findBucket store b g = none ↔ (b, g) ∉ storeKeys store := by
  rw [findBucket, List.find?_eq_none, storeKeys]
  constructor
  · intro h hmem
    obtain ⟨r, hr, hkey⟩ := List.mem_map.mp hmem
    have hprop := h r hr
    simp only [Bool.and_eq_true, decide_eq_true_eq] at hprop
    exact hprop ⟨congrArg Prod.fst hkey, congrArg Prod.snd hkey⟩
  · intro h r hr
    simp only [Bool.and_eq_true, decide_eq_true_eq, not_and]
    intro h1 h2
    exact h (List.mem_map.mpr ⟨r, hr, by rw [TimeBucket.key, h1, h2]⟩)

theorem storeKeys_setBucketCount (store : List TimeBucket) (b : ℤ) (g : Granularity)
    (c : ℕ) (now : ℤ) :
    storeKeys (setBucketCount store b g c now) = storeKeys store := by
  induction store with
  | nil => rfl
  | cons r rs ih =>
    by_cases h : r.bucket_start = b ∧ r.granularity = g
    · simp [setBucketCount, if_pos h, storeKeys, TimeBucket.key]
    · simp only [setBucketCount, if_neg h, storeKeys, List.map_cons] at ih ⊢
      rw [ih]

theorem grid_step_arith (g : Granularity) {current endT b : ℤ} (hbne : b ≠ current) :
    (current + g.delta ≤ b ∧ b < endT ∧ (b - (current + g.delta)) % g.delta = 0) ↔
      (current ≤ b ∧ b < endT ∧ (b - current) % g.delta = 0) := by
  cases g <;> (simp only [Granularity.delta]; omega)

theorem computeTimeBucketsAux_lookup (tweets : List RawTweet) (g : Granularity)
    (endT now : ℤ) :
    ∀ (n : ℕ) (current : ℤ) (store : List TimeBucket), (endT - current).toNat = n →
      ∀ (b : ℤ) (g' : Granularity),
        lookupCount (computeTimeBucketsAux tweets g endT now current store).1 b g' =
          if g' = g ∧ current ≤ b ∧ b < endT ∧ (b - current) % g.delta = 0 then
            some (tweetCountIn tweets b (b + g.delta))
          else lookupCount store b g' := by
  intro n
  induction n using Nat.strong_induction_on with
  | _ n ih =>
    intro current store hn b g'
    have hd : 0 < g.delta := by cases g <;> simp [Granularity.delta]
    rw [computeTimeBucketsAux]
    by_cases h : current < endT
    · rw [dif_pos h]
      simp only []
      split
      case _ r heq =>
        rw [ih ((endT - (current + g.delta)).toNat) (by omega) (current + g.delta) _ rfl b g']
        by_cases hbg : b = current ∧ g' = g
        · obtain ⟨rfl, rfl⟩ := hbg
          rw [if_neg (by rintro ⟨_, h1, _, _⟩; omega), if_pos ⟨rfl, le_refl b, h, by simp⟩]
          rw [lookupCount, findBucket_setBucketCount_same, heq]
          rfl
        · rw [show lookupCount (setBucketCount store current g
              (tweetCountIn tweets current (current + g.delta)) now) b g' =
              lookupCount store b g' by
            rw [lookupCount, findBucket_setBucketCount_other _ _ _ _ _ _ _ hbg]
            rfl]
          by_cases hg : g' = g
          · exact if_congr (by
              rw [hg]
              exact and_congr_right fun _ =>
                grid_step_arith g fun hh => hbg ⟨hh, hg⟩) rfl rfl
          · exact if_congr (by simp [hg]) rfl rfl
      case _ heq =>
        rw [ih ((endT - (current + g.delta)).toNat) (by omega) (current + g.delta) _ rfl b g']
        by_cases hbg : b = current ∧ g' = g
        · obtain ⟨rfl, rfl⟩ := hbg
          rw [if_neg (by rintro ⟨_, h1, _, _⟩; omega), if_pos ⟨rfl, le_refl b, h, by simp⟩]
          rw [lookupCount, findBucket_append, heq]
          simp [findBucket_singleton]
        · rw [show lookupCount (store ++ [⟨current, current + g.delta, g,
              tweetCountIn tweets current (current + g.delta), now⟩]) b g' =
              lookupCount store b g' by
            rw [lookupCount, findBucket_append, findBucket_singleton,
              if_neg (by rintro ⟨rfl, rfl⟩; exact hbg ⟨rfl, rfl⟩), Option.or_none]
            rfl]
          by_cases hg : g' = g
          · exact if_congr (by
              rw [hg]
              exact and_congr_right fun _ =>
                grid_step_arith g fun hh => hbg ⟨hh, hg⟩) rfl rfl
          · exact if_congr (by simp [hg]) rfl rfl
    · rw [dif_neg h, if_neg (by rintro ⟨_, h1, h2, _⟩; omega)]

theorem computeTimeBucketsAux_nodup (tweets : List RawTweet) (g : Granularity)
    (endT now : ℤ) :
    ∀ (n : ℕ) (current : ℤ) (store : List TimeBucket), (endT - current).toNat = n →
      NodupKeys store → NodupKeys (computeTimeBucketsAux tweets g endT now current store).1 := by
  intro n
  induction n using Nat.strong_induction_on with
  | _ n ih =>
    intro current store hn hstore
    have hd : 0 < g.delta := by cases g <;> simp [Granularity.delta]
    rw [computeTimeBucketsAux]
    by_cases h : current < endT
    · rw [dif_pos h]
      simp only []
      split
      case _ r heq =>
        apply ih ((endT - (current + g.delta)).toNat) (by omega) _ _ rfl
        rw [NodupKeys, storeKeys_setBucketCount]
        exact hstore
      case _ heq =>
        apply ih ((endT - (current + g.delta)).toNat) (by omega) _ _ rfl
        rw [NodupKeys, storeKeys, List.map_append, List.nodup_append]
        refine ⟨hstore, List.nodup_singleton _, ?_⟩
        intro k hk hk1
        simp only [List.map_cons, List.map_nil, List.mem_singleton] at hk1
        subst hk1
        exact (findBucket_none_iff store current g).mp heq hk
    · rw [dif_neg h]
      exact hstore

/-- Claim C9: `compute_time_buckets` upserts exactly one bucket per grid
start in `[start_time, end_time)` keyed by `(bucket_start, granularity)`
(every other key is untouched), preserves key uniqueness (no duplicate
rows), and re-running it over the same range with the same tweets leaves
every recorded count unchanged — the rerun updates existing buckets in
place. -/
theorem compute_time_buckets_idempotent (tweets : List RawTweet) (g : Granularity)
    (startT endT now1 now2 : ℤ) (store : List TimeBucket) (hstore : NodupKeys store) :
    NodupKeys (computeTimeBuckets tweets g startT endT now1 store).1 ∧
      (∀ (b : ℤ) (g' : Granularity),
        lookupCount (computeTimeBuckets tweets g startT endT now1 store).1 b g' =
          if g' = g ∧ startT ≤ b ∧ b < endT ∧ (b - startT) % g.delta = 0 then
            some (tweetCountIn tweets b (b + g.delta))
          else lookupCount store b g') ∧
      (∀ (b : ℤ) (g' : Granularity),
        lookupCount (computeTimeBuckets tweets g startT endT now2
            (computeTimeBuckets tweets g startT endT now1 store).1).1 b g' =
          lookupCount (computeTimeBuckets tweets g startT endT now1 store).1 b g') := by
  have hchar := computeTimeBucketsAux_lookup tweets g endT now1 _ startT store rfl
  have hchar2 := computeTimeBucketsAux_lookup tweets g endT now2 _ startT
    (computeTimeBuckets tweets g startT endT now1 store).1 rfl
  refine ⟨?_, hchar, ?_⟩
  · exact computeTimeBucketsAux_nodup tweets g endT now1 _ startT store rfl hstore
  · intro b g'
    rw [computeTimeBuckets, hchar2 b g']
    by_cases hcond : g' = g ∧ startT ≤ b ∧ b < endT ∧ (b - startT) % g.delta = 0
    · rw [if_pos hcond, computeTimeBuckets, hchar b g', if_pos hcond]
    · rw [if_neg hcond]

theorem compute_time_buckets_idempotent_witness :
    NodupKeys (computeTimeBuckets [⟨30, false⟩] .hourly 0 120 0 []).1 ∧
      (∀ (b : ℤ) (g' : Granularity),
        lookupCount (computeTimeBuckets [⟨30, false⟩] .hourly 0 120 0 []).1 b g' =
          if g' = .hourly ∧ 0 ≤ b ∧ b < 120 ∧ (b - 0) % Granularity.hourly.delta = 0 then
            some (tweetCountIn [⟨30, false⟩] b (b + Granularity.hourly.delta))
          else lookupCount [] b g') ∧
      (∀ (b : ℤ) (g' : Granularity),
        lookupCount (computeTimeBuckets [⟨30, false⟩] .hourly 0 120 1
            (computeTimeBuckets [⟨30, false⟩] .hourly 0 120 0 []).1).1 b g' =
          lookupCount (computeTimeBuckets [⟨30, false⟩] .hourly 0 120 0 []).1 b g') :=
  compute_time_buckets_idempotent [⟨30, false⟩] .hourly 0 120 0 1 []
    (by simp [NodupKeys, storeKeys])

theorem zipWith_map_sum (g : ℝ → ℝ → ℝ) (f : ℝ → ℝ) :
    ∀ (l1 l2 : List ℝ), l1.length = l2.length →
      ((List.zipWith g l1 l2).map f).sum =
        ∑ i in Finset.range l1.length, f (g (l1.getD i 0) (l2.getD i 0)) := by
  intro l1
  induction l1 with
  | nil => intro l2 h; simp
  | cons x xs ih =>
    intro l2 h
    cases l2 with
    | nil => simp at h
    | cons y ys =>
      simp only [List.length_cons] at h
      rw [List.zipWith_cons_cons, List.map_cons, List.sum_cons, List.length_cons,
        Finset.sum_range_succ']
      simp only [List.getD_cons_succ, List.getD_cons_zero]
      rw [ih ys (by omega)]
      ring

theorem masked_length :
    ∀ (l1 l2 : List ℝ), l1.length = l2.length →
      ((l1.zip l2).filter fun p => decide (0 < p.1)).length =
        (l1.filter fun x => decide (0 < x)).length := by
  intro l1
  induction l1 with
  | nil => intro l2 h; simp
  | cons x xs ih =>
    intro l2 h
    cases l2 with
    | nil => simp at h
    | cons y ys =>
      simp only [List.length_cons] at h
      rw [List.zip_cons_cons, List.filter_cons, List.filter_cons]
      by_cases hx : 0 < x
      · simp only [hx, decide_True, if_true]
        rw [List.length_cons, List.length_cons, ih ys (by omega)]
      · simp only [decide_eq_true_eq, if_neg hx]
        exact ih ys (by omega)

theorem masked_sum :
    ∀ (l1 l2 : List ℝ), l1.length = l2.length →
      ((((l1.zip l2).filter fun p => decide (0 < p.1)).map
          fun p => |(p.1 - p.2) / p.1|).sum) =
        ∑ i in Finset.range l1.length,
          if 0 < l1.getD i 0 then |(l1.getD i 0 - l2.getD i 0) / l1.getD i 0| else 0 := by
  intro l1
  induction l1 with
  | nil => intro l2 h; simp
  | cons x xs ih =>
    intro l2 h
    cases l2 with
    | nil => simp at h
    | cons y ys =>
      simp only [List.length_cons] at h
      rw [List.zip_cons_cons, List.filter_cons, List.length_cons, Finset.sum_range_succ']
      simp only [List.getD_cons_succ, List.getD_cons_zero]
      by_cases hx : 0 < x
      · simp only [hx, decide_True, if_true, if_pos hx]
        rw [List.map_cons, List.sum_cons, ih ys (by omega)]
        ring
      · simp only [decide_eq_true_eq, if_neg hx]
        rw [ih ys (by omega)]
        ring

theorem masked_pos_iff (l1 l2 : List ℝ) (h : l1.length = l2.length) :
    0 < ((l1.zip l2).filter fun p => decide (0 < p.1)).length ↔ ∃ x ∈ l1, 0 < x := by
  rw [masked_length l1 l2 h, List.length_pos]
  constructor
  · intro hne
    obtain ⟨p, hp⟩ := List.exists_mem_of_ne_nil _ hne
    have := List.mem_filter.mp hp
    exact ⟨p, this.1, by simpa using this.2⟩
  · rintro ⟨x, hx, hpos⟩ hnil
    have : x ∈ (l1.filter fun x => decide (0 < x)) :=
      List.mem_filter.mpr ⟨hx, by simpa using hpos⟩
    simp [hnil] at this

open Classical in
/-- Claim C5: `compute_metrics` returns rmse, mae and mape where mape
averages the absolute percentage errors only over entries with
`y_true > 0`; when no entry of `y_true` is positive (in particular when all
are zero) the mape is `NaN` (`none`) — never an exception or infinity —
while rmse and mae are still computed and returned. -/
theorem compute_metrics_spec (yTrue yPred : List ℝ) (h : yTrue.length = yPred.length) :
    (computeMetrics yTrue yPred).rmse =
      Real.sqrt ((∑ i in Finset.range yTrue.length,
        (yTrue.getD i 0 - yPred.getD i 0) ^ 2) / yTrue.length) ∧
      (computeMetrics yTrue yPred).mae =
        (∑ i in Finset.range yTrue.length, |yTrue.getD i 0 - yPred.getD i 0|) /
          yTrue.length ∧
      ((∀ x ∈ yTrue, x = 0) → (computeMetrics yTrue yPred).mape = none) ∧
      (computeMetrics yTrue yPred).mape =
        (if ∃ x ∈ yTrue, 0 < x then
          some ((∑ i in Finset.range yTrue.length,
              if 0 < yTrue.getD i 0 then
                |(yTrue.getD i 0 - yPred.getD i 0) / yTrue.getD i 0| else 0) /
            (yTrue.filter fun x => decide (0 < x)).length * 100)
        else none) := by
  refine ⟨?_, ?_, ?_, ?_⟩
  · simp only [computeMetrics]
    rw [zipWith_map_sum _ _ _ _ h]
  · simp only [computeMetrics]
    rw [zipWith_map_sum _ _ _ _ h]
  · intro hz
    simp only [computeMetrics]
    rw [if_neg]
    intro hpos
    obtain ⟨x, hx, hxpos⟩ := (masked_pos_iff yTrue yPred h).mp hpos
    rw [hz x hx] at hxpos
    exact lt_irrefl 0 hxpos
  · simp only [computeMetrics]
    by_cases hex : ∃ x ∈ yTrue, 0 < x
    · rw [if_pos ((masked_pos_iff yTrue yPred h).mpr hex), if_pos hex, listMean,
        masked_sum yTrue yPred h, List.length_map, masked_length yTrue yPred h]
    · rw [if_neg (fun hpos => hex ((masked_pos_iff yTrue yPred h).mp hpos)), if_neg hex]

open Classical in
theorem compute_metrics_spec_witness :
    (computeMetrics [0, 0] [1, 3]).rmse =
      Real.sqrt ((∑ i in Finset.range ([0, 0] : List ℝ).length,
        (([0, 0] : List ℝ).getD i 0 - ([1, 3] : List ℝ).getD i 0) ^ 2) /
          ([0, 0] : List ℝ).length) ∧
      (computeMetrics [0, 0] [1, 3]).mae =
        (∑ i in Finset.range ([0, 0] : List ℝ).length,
          |([0, 0] : List ℝ).getD i 0 - ([1, 3] : List ℝ).getD i 0|) /
            ([0, 0] : List ℝ).length ∧
      ((∀ x ∈ ([0, 0] : List ℝ), x = 0) → (computeMetrics [0, 0] [1, 3]).mape = none) ∧
      (computeMetrics [0, 0] [1, 3]).mape =
        (if ∃ x ∈ ([0, 0] : List ℝ), 0 < x then
          some ((∑ i in Finset.range ([0, 0] : List ℝ).length,
              if 0 < ([0, 0] : List ℝ).getD i 0 then
                |(([0, 0] : List ℝ).getD i 0 - ([1, 3] : List ℝ).getD i 0) /
                  ([0, 0] : List ℝ).getD i 0| else 0) /
            (([0, 0] : List ℝ).filter fun x => decide (0 < x)).length * 100)
        else none) :=
  compute_metrics_spec [0, 0] [1, 3] rfl

theorem backtestLoop_eq (store : List TimeBucket)
    (modelRun : List (ℤ × ℕ) → List (ℤ × ℕ) → Except String (ℝ × ℝ × Option ℝ))
    (startDate endDate step : ℤ) (trainDays testHours : ℕ) :
    ∀ (remaining i : ℕ),
      backtestLoop store modelRun startDate endDate step trainDays testHours i remaining =
        ((List.range' i remaining).takeWhile fun j : ℕ =>
            decide (startDate + (j : ℤ) * step * 60 + (testHours : ℤ) * 60 ≤ endDate)).filterMap
          (windowOutcome store modelRun startDate step trainDays testHours) := by
  intro remaining
  induction remaining with
  | zero => intro i; rfl
  | succ r ih =>
    intro i
    rw [show List.range' i (r + 1) = i :: List.range' (i + 1) r from List.range'_succ i r 1,
      List.takeWhile_cons]
    by_cases hbreak : startDate + (i : ℤ) * step * 60 + (testHours : ℤ) * 60 ≤ endDate
    · rw [if_pos (by simpa using hbreak :
        decide (startDate + (i : ℤ) * step * 60 + (testHours : ℤ) * 60 ≤ endDate) = true)]
      rw [List.filterMap_cons]
      simp only [backtestLoop, windowOutcome]
      rw [if_neg (by omega :
        ¬ endDate < startDate + (i : ℤ) * step * 60 + (testHours : ℤ) * 60)]
      by_cases htrain :
          getBucketCounts store (startDate + (i : ℤ) * step * 60 - (trainDays : ℤ) * 1440)
            (startDate + (i : ℤ) * step * 60) .hourly = [] ∨
          (getBucketCounts store (startDate + (i : ℤ) * step * 60 - (trainDays : ℤ) * 1440)
            (startDate + (i : ℤ) * step * 60) .hourly).length < 24
      · simp only [if_pos htrain]
        exact ih (i + 1)
      · simp only [if_neg htrain]
        by_cases htest :
            getBucketCounts store (startDate + (i : ℤ) * step * 60)
              (startDate + (i : ℤ) * step * 60 + (testHours : ℤ) * 60) .hourly = []
        · simp only [if_pos htest]
          exact ih (i + 1)
        · simp only [if_neg htest]
          cases hm : modelRun
              (getBucketCounts store (startDate + (i : ℤ) * step * 60 - (trainDays : ℤ) * 1440)
                (startDate + (i : ℤ) * step * 60) .hourly)
              (getBucketCounts store (startDate + (i : ℤ) * step * 60)
                (startDate + (i : ℤ) * step * 60 + (testHours : ℤ) * 60) .hourly) with
          | error e =>
            simp only [hm]
            exact ih (i + 1)
          | ok m =>
            simp only [hm]
            rw [ih (i + 1)]
    · rw [if_neg (by simpa using hbreak), backtestLoop,
        if_pos (by omega : endDate < startDate + (i : ℤ) * step * 60 + (testHours : ℤ) * 60)]
      rfl

/-- Claim C6: `rolling_backtest` never raises for data-sparsity reasons:
windows with under-24-observation training data or empty test data, and
windows whose fit/predict/score raises, are skipped and excluded from
aggregation (the completed windows are exactly the `windowOutcome`
successes up to the early break), and when zero windows complete the call
returns a summary with `n_windows_completed = 0` and `NaN` mean metrics. -/
theorem rolling_backtest_spec (store : List TimeBucket)
    (modelRun : List (ℤ × ℕ) → List (ℤ × ℕ) → Except String (ℝ × ℝ × Option ℝ))
    (modelName : String) (startDate endDate : ℤ) (nWindows trainDays testHours : ℕ)
    (hnw : 0 < nWindows) (step : ℤ) (completed : List WindowResult)
    (hstep : step = pyTrunc (((endDate - startDate : ℤ) : ℚ) / 60 / (nWindows : ℚ)))
    (hcompleted : completed = ((List.range nWindows).takeWhile fun j : ℕ =>
        decide (startDate + (j : ℤ) * step * 60 + (testHours : ℤ) * 60 ≤ endDate)).filterMap
      (windowOutcome store modelRun startDate step trainDays testHours)) :
    (rollingBacktest store modelRun modelName startDate endDate nWindows trainDays
        testHours).n_windows_completed = completed.length ∧
      (completed = [] →
        rollingBacktest store modelRun modelName startDate endDate nWindows trainDays
          testHours = ⟨modelName, 0, none, none, none, []⟩) ∧
      (completed ≠ [] →
        rollingBacktest store modelRun modelName startDate endDate nWindows trainDays
          testHours =
          ⟨modelName, completed.length, some (listMean (completed.map WindowResult.rmse)),
            some (listMean (completed.map WindowResult.mae)),
            (if (completed.filterMap WindowResult.mape).isEmpty then none
              else some (listMean (completed.filterMap WindowResult.mape))),
            completed⟩) := by
  subst hstep
  have hloop : backtestLoop store modelRun startDate endDate
      (pyTrunc (((endDate - startDate : ℤ) : ℚ) / 60 / (nWindows : ℚ))) trainDays testHours
      0 nWindows = completed := by
    rw [backtestLoop_eq, hcompleted, List.range_eq_range']
  refine ⟨?_, ?_, ?_⟩
  · simp only [rollingBacktest]
    rw [hloop]
    by_cases hemp : completed = []
    · simp [hemp]
    · rw [if_neg (by simpa [List.isEmpty_iff] using hemp)]
  · intro hemp
    simp only [rollingBacktest]
    rw [hloop, hemp]
    rfl
  · intro hne
    simp only [rollingBacktest]
    rw [hloop, if_neg (by simpa [List.isEmpty_iff] using hne)]

theorem rolling_backtest_spec_witness :
    (rollingBacktest [] (fun _ _ => .error "e") "m" 0 0 1 0 0).n_windows_completed =
        ([] : List WindowResult).length ∧
      (([] : List WindowResult) = [] →
        rollingBacktest [] (fun _ _ => .error "e") "m" 0 0 1 0 0 =
          ⟨"m", 0, none, none, none, []⟩) ∧
      (([] : List WindowResult) ≠ [] →
        rollingBacktest [] (fun _ _ => .error "e") "m" 0 0 1 0 0 =
          ⟨"m", ([] : List WindowResult).length,
            some (listMean (([] : List WindowResult).map WindowResult.rmse)),
            some (listMean (([] : List WindowResult).map WindowResult.mae)),
            (if (([] : List WindowResult).filterMap WindowResult.mape).isEmpty then none
              else some (listMean (([] : List WindowResult).filterMap WindowResult.mape))),
            []⟩) :=
  rolling_backtest_spec [] (fun _ _ => .error "e") "m" 0 0 1 0 0 (by decide) 0 []
    (by norm_num [pyTrunc])
    (by simp [List.range_succ, List.takeWhile_cons, windowOutcome, getBucketCounts])

theorem rollingSlice_length (counts : List ℝ) (w i : ℕ) (hi : i < counts.length) :
    (rollingSlice counts w i).length = min (i + 1) w := by
  rw [rollingSlice, List.length_drop, List.length_take]
  omega

theorem rollingMeanAt_isSome (counts : List ℝ) (w i : ℕ) (hi : i < counts.length) :
    (rollingMeanAt counts w i).isSome ↔ 24 ≤ min (i + 1) w := by
  simp only [rollingMeanAt]
  rw [rollingSlice_length counts w i hi]
  split <;> simp_all

theorem rollingStdAt_isSome (counts : List ℝ) (w i : ℕ) (hi : i < counts.length) :
    (rollingStdAt counts w i).isSome ↔ 24 ≤ min (i + 1) w := by
  simp only [rollingStdAt]
  rw [rollingSlice_length counts w i hi]
  split <;> simp_all

theorem ratioFlag_iff (θ : ℝ) (v : FloatVal) :
    ratioFlag θ v = true ↔ (v.Exceeds (1 + θ) ∨ v.Below (1 / (1 + θ))) := by
  cases v <;> simp [ratioFlag, FloatVal.Exceeds, FloatVal.Below]

theorem mem_shiftRows (θ : ℝ) :
    ∀ (rows : List (ℤ × FloatVal × Option ℝ × Option ℝ)) (sh : RegimeShift),
      sh ∈ shiftRows θ rows ↔ ∃ row ∈ rows, ratioFlag θ row.2.1 = true ∧
        sh = ⟨row.1, row.2.1, row.2.2.1, row.2.2.2⟩ := by
  intro rows sh
  induction rows with
  | nil => simp [shiftRows]
  | cons r rest ih =>
    obtain ⟨t, v, m, sd⟩ := r
    rw [shiftRows]
    by_cases hf : ratioFlag θ v = true
    · rw [if_pos hf]
      simp only [List.mem_cons, ih]
      constructor
      · rintro (rfl | ⟨row, hrow, hflag, rfl⟩)
        · exact ⟨(t, v, m, sd), Or.inl rfl, hf, rfl⟩
        · exact ⟨row, Or.inr hrow, hflag, rfl⟩
      · rintro ⟨row, (rfl | hrow), hflag, rfl⟩
        · exact Or.inl rfl
        · exact Or.inr ⟨row, hrow, hflag, rfl⟩
    · rw [if_neg hf, ih]
      constructor
      · rintro ⟨row, hrow, hflag, rfl⟩
        exact ⟨row, List.mem_cons_of_mem _ hrow, hflag, rfl⟩
      · rintro ⟨row, hrow, hflag, rfl⟩
        rcases List.mem_cons.mp hrow with rfl | hrow2
        · exact absurd hflag hf
        · exact ⟨row, hrow2, hflag, rfl⟩

/-- Claim C7, counterexample to the universal quantification over
`window_hours`: at `window_hours = 1` (below `min_periods = 24`) with one
stored hourly bucket in range, the claim predicts the empty flag list (a
one-row window can never hold 24 samples, so every ratio is `NaN`), but
`detect_regime_shift` raises pandas' `ValueError` because `min_periods 24`
exceeds the window, and returns nothing. -/
theorem detect_regime_shift_claim_counterexample :
    detectRegimeShift [⟨0, 60, .hourly, 5, 0⟩] 0 60 1 2 =
        .error (.valueError "min_periods 24 must be <= window") ∧
      detectRegimeShift [⟨0, 60, .hourly, 5, 0⟩] 0 60 1 2 ≠
        .ok ([] : List RegimeShift) := by
  have hdf : getBucketCounts [⟨0, 60, .hourly, 5, 0⟩] 0 60 .hourly = [(0, 5)] := by
    simp [getBucketCounts]
  have h1 : detectRegimeShift [⟨0, 60, .hourly, 5, 0⟩] 0 60 1 2 =
      .error (.valueError "min_periods 24 must be <= window") := by
    rw [detectRegimeShift, hdf]
    rw [if_neg (by simp), if_pos (by norm_num)]
  exact ⟨h1, by rw [h1]; simp⟩

/-- Claim C7 (amended): for `window_hours ≥ 24`, `detect_regime_shift`
computes the rolling mean/std columns over `window_hours` rows emitting a
value only once at least 24 samples are in the window, forms the ratio of
the current rolling std to the one a full window earlier, and flags exactly
the rows whose non-`NaN` ratio exceeds `1 + threshold_std` (a `+inf` ratio
counts as exceeding) or falls below `1 / (1 + threshold_std)`. For every
`window_hours`, fewer than `window_hours` observations yield the empty
list; but for `window_hours < 24` past that guard the call raises pandas'
`ValueError` (`min_periods 24` exceeds the window) instead of returning.
The hypothesis `1 + threshold_std ≠ 0` excludes the one threshold where
CPython would divide by zero. -/
theorem detect_regime_shift_spec (store : List TimeBucket) (startDate endDate : ℤ)
    (w : ℕ) (θ : ℝ) (hθ : 1 + θ ≠ 0) (df : List (ℤ × ℕ)) (counts : List ℝ)
    (hdf : df = getBucketCounts store startDate endDate .hourly)
    (hcounts : counts = df.map fun p => ((p.2 : ℝ))) :
    (df.length < w → detectRegimeShift store startDate endDate w θ = .ok []) ∧
      (w < 24 → ¬(df = [] ∨ df.length < w) →
        detectRegimeShift store startDate endDate w θ =
          .error (.valueError "min_periods 24 must be <= window")) ∧
      (24 ≤ w → ∀ i, i < df.length →
        (((rollingMeanAt counts w i).isSome ↔ 24 ≤ min (i + 1) w) ∧
          ((rollingStdAt counts w i).isSome ↔ 24 ≤ min (i + 1) w))) ∧
      (24 ≤ w → ∀ (sh : RegimeShift) (shifts : List RegimeShift),
        detectRegimeShift store startDate endDate w θ = .ok shifts →
        (sh ∈ shifts ↔ w ≤ df.length ∧ ∃ i, i < df.length ∧
          sh = ⟨(df.getD i (0, 0)).1, varianceRatioAt counts w i,
            rollingMeanAt counts w i, rollingStdAt counts w i⟩ ∧
          ((varianceRatioAt counts w i).Exceeds (1 + θ) ∨
            (varianceRatioAt counts w i).Below (1 / (1 + θ))))) := by
  subst hdf
  subst hcounts
  refine ⟨?_, ?_, ?_, ?_⟩
  · intro hlen
    rw [detectRegimeShift, if_pos (Or.inr hlen)]
  · intro hw24 hcase
    rw [detectRegimeShift, if_neg hcase, if_pos hw24]
  · intro _ i hi
    have hi2 : i < (List.map (fun p => ((p.2 : ℝ)))
        (getBucketCounts store startDate endDate .hourly)).length := by
      rw [List.length_map]; exact hi
    exact ⟨rollingMeanAt_isSome _ w i hi2, rollingStdAt_isSome _ w i hi2⟩
  · intro hw24 sh shifts heq
    by_cases hcase : getBucketCounts store startDate endDate .hourly = [] ∨
        (getBucketCounts store startDate endDate .hourly).length < w
    · rw [detectRegimeShift, if_pos hcase] at heq
      injection heq with heq2
      subst heq2
      simp only [List.not_mem_nil, false_iff, not_and]
      intro hw
      rintro ⟨i, hi, _, _⟩
      rcases hcase with hnil | hlt
      · rw [hnil] at hi
        simp at hi
      · omega
    · rw [detectRegimeShift, if_neg hcase, if_neg (by omega : ¬ w < 24)] at heq
      injection heq with heq2
      subst heq2
      push_neg at hcase
      constructor
      · intro hsh
        refine ⟨by omega, ?_⟩
        obtain ⟨row, hrow, hflag, rfl⟩ := (mem_shiftRows θ _ sh).mp hsh
        obtain ⟨i, hi, rfl⟩ := List.mem_map.mp hrow
        exact ⟨i, List.mem_range.mp hi, rfl, (ratioFlag_iff θ _).mp hflag⟩
      · rintro ⟨hw, i, hi, rfl, hflag⟩
        apply (mem_shiftRows θ _ _).mpr
        refine ⟨(((getBucketCounts store startDate endDate Granularity.hourly).getD i (0, 0)).1,
          varianceRatioAt (List.map (fun p => ((p.2 : ℝ)))
            (getBucketCounts store startDate endDate .hourly)) w i,
          rollingMeanAt (List.map (fun p => ((p.2 : ℝ)))
            (getBucketCounts store startDate endDate .hourly)) w i,
          rollingStdAt (List.map (fun p => ((p.2 : ℝ)))
            (getBucketCounts store startDate endDate .hourly)) w i),
          ?_, (ratioFlag_iff θ _).mpr hflag, rfl⟩
        exact List.mem_map.mpr ⟨i, List.mem_range.mpr hi, rfl⟩

theorem detect_regime_shift_spec_witness :
    (([(0, 5)] : List (ℤ × ℕ)).length < 1 →
        detectRegimeShift [⟨0, 60, .hourly, 5, 0⟩] 0 60 1 2 = .ok []) ∧
      ((1 : ℕ) < 24 → ¬(([(0, 5)] : List (ℤ × ℕ)) = [] ∨ ([(0, 5)] : List (ℤ × ℕ)).length < 1) →
        detectRegimeShift [⟨0, 60, .hourly, 5, 0⟩] 0 60 1 2 =
          .error (.valueError "min_periods 24 must be <= window")) ∧
      (24 ≤ (1 : ℕ) → ∀ i, i < ([(0, 5)] : List (ℤ × ℕ)).length →
        (((rollingMeanAt [((5 : ℕ) : ℝ)] 1 i).isSome ↔ 24 ≤ min (i + 1) 1) ∧
          ((rollingStdAt [((5 : ℕ) : ℝ)] 1 i).isSome ↔ 24 ≤ min (i + 1) 1))) ∧
      (24 ≤ (1 : ℕ) → ∀ (sh : RegimeShift) (shifts : List RegimeShift),
        detectRegimeShift [⟨0, 60, .hourly, 5, 0⟩] 0 60 1 2 = .ok shifts →
        (sh ∈ shifts ↔ 1 ≤ ([(0, 5)] : List (ℤ × ℕ)).length ∧
          ∃ i, i < ([(0, 5)] : List (ℤ × ℕ)).length ∧
          sh = ⟨(([(0, 5)] : List (ℤ × ℕ)).getD i (0, 0)).1, varianceRatioAt [((5 : ℕ) : ℝ)] 1 i,
            rollingMeanAt [((5 : ℕ) : ℝ)] 1 i, rollingStdAt [((5 : ℕ) : ℝ)] 1 i⟩ ∧
          ((varianceRatioAt [((5 : ℕ) : ℝ)] 1 i).Exceeds (1 + 2) ∨
            (varianceRatioAt [((5 : ℕ) : ℝ)] 1 i).Below (1 / (1 + 2))))) :=
  detect_regime_shift_spec [⟨0, 60, .hourly, 5, 0⟩] 0 60 1 2 (by norm_num) [(0, 5)]
    [((5 : ℕ) : ℝ)] (by simp [getBucketCounts]) rfl

theorem finsetRange_exists_succ (n : ℕ) (P : ℕ → Prop) :
    (∃ i ∈ Finset.range (n + 1), P i) ↔ P 0 ∨ ∃ i ∈ Finset.range n, P (i + 1) := by
  constructor
  · rintro ⟨i, hi, hp⟩
    rw [Finset.mem_range] at hi
    cases i with
    | zero => exact Or.inl hp
    | succ j => exact Or.inr ⟨j, Finset.mem_range.mpr (by omega), hp⟩
  · rintro (h0 | ⟨j, hj, hp⟩)
    · exact ⟨0, Finset.mem_range.mpr (by omega), h0⟩
    · rw [Finset.mem_range] at hj
      exact ⟨j + 1, Finset.mem_range.mpr (by omega), hp⟩

open Classical in
theorem hawkesLogSum_eq (mu alpha beta : ℝ) :
    ∀ (rest past : List ℝ),
      hawkesLogSum mu alpha beta past rest =
        if ∃ i ∈ Finset.range rest.length,
            hawkesIntensity mu alpha beta (past ++ rest.take i) (rest.getD i 0) ≤ 0 then none
        else some (∑ i in Finset.range rest.length,
          Real.log (hawkesIntensity mu alpha beta (past ++ rest.take i) (rest.getD i 0))) := by
  intro rest
  induction rest with
  | nil =>
    intro past
    rw [hawkesLogSum]
    rw [if_neg (by rintro ⟨i, hi, _⟩; simp at hi)]
    simp
  | cons t rest ih =>
    intro past
    rw [hawkesLogSum]
    by_cases hlam : hawkesIntensity mu alpha beta past t ≤ 0
    · have hc : ∃ i ∈ Finset.range (t :: rest).length,
          hawkesIntensity mu alpha beta (past ++ (t :: rest).take i)
            ((t :: rest).getD i 0) ≤ 0 :=
        ⟨0, by simp, by simpa using hlam⟩
      rw [if_pos hlam, if_pos hc]
    · have hsplit : (∃ i ∈ Finset.range (t :: rest).length,
          hawkesIntensity mu alpha beta (past ++ (t :: rest).take i)
            ((t :: rest).getD i 0) ≤ 0) ↔
          (∃ i ∈ Finset.range rest.length,
            hawkesIntensity mu alpha beta (past ++ [t] ++ rest.take i) (rest.getD i 0) ≤ 0) := by
        rw [List.length_cons, finsetRange_exists_succ]
        simp only [List.take_zero, List.append_nil, List.getD_cons_zero, List.take_succ_cons,
          List.getD_cons_succ, List.append_assoc, List.singleton_append]
        simp [hlam]
      rw [if_neg hlam, ih (past ++ [t])]
      by_cases hex : ∃ i ∈ Finset.range rest.length,
          hawkesIntensity mu alpha beta (past ++ [t] ++ rest.take i) (rest.getD i 0) ≤ 0
      · rw [if_pos hex, if_pos (hsplit.mpr hex)]
        rfl
      · rw [if_neg hex, if_neg (fun hc => hex (hsplit.mp hc))]
        rw [Option.map_some']
        congr 1
        rw [List.length_cons, Finset.sum_range_succ']
        simp only [List.take_zero, List.append_nil, List.getD_cons_zero, List.take_succ_cons,
          List.getD_cons_succ, List.append_assoc, List.singleton_append]
        ring

theorem hawkesPairSum_eq (alpha beta : ℝ) :
    ∀ (rest past : List ℝ),
      hawkesPairSum alpha beta past rest =
        ∑ i in Finset.range rest.length,
          ((past ++ rest.take i).map fun tj =>
            alpha * (1 - Real.exp (-beta * (rest.getD i 0 - tj)))).sum := by
  intro rest
  induction rest with
  | nil => intro past; simp [hawkesPairSum]
  | cons t rest ih =>
    intro past
    rw [hawkesPairSum, List.length_cons, Finset.sum_range_succ']
    simp only [List.take_zero, List.append_nil, List.getD_cons_zero, List.take_succ_cons,
      List.getD_cons_succ, List.append_assoc, List.singleton_append]
    rw [ih (past ++ [t])]
    simp only [List.append_assoc, List.singleton_append]
    ring

open Classical in
/-- Claim C3 (amended): `_negative_log_likelihood` returns the penalty
`1e10` whenever the parameter domain is violated (`mu <= 0`, `alpha < 0`,
`beta <= 0`, or `alpha >= beta`) or some event's intensity is non-positive,
and otherwise the negative of `[Σ_i log λ(t_i)]` minus the quantity
`mu * (t_n - t_1) + Σ_i Σ_{j<i} alpha * (1 - exp (-beta * (t_i - t_j)))` —
a double sum over ordered event pairs, not the claimed single-sum
closed-form compensator. -/
theorem hawkes_nll_characterization (mu alpha beta : ℝ) (events : List ℝ) :
    negativeLogLikelihood mu alpha beta events =
      if mu ≤ 0 ∨ alpha < 0 ∨ beta ≤ 0 ∨ alpha ≥ beta then 1e10
      else if ∃ i ∈ Finset.range events.length,
          hawkesIntensity mu alpha beta (events.take i) (events.getD i 0) ≤ 0 then 1e10
      else
        -((∑ i in Finset.range events.length,
            Real.log (hawkesIntensity mu alpha beta (events.take i) (events.getD i 0))) -
          (mu * (events.getLastD 0 - events.headD 0) +
            ∑ i in Finset.range events.length,
              ((events.take i).map fun tj =>
                alpha * (1 - Real.exp (-beta * (events.getD i 0 - tj)))).sum)) := by
  rw [negativeLogLikelihood]
  by_cases hdom : mu ≤ 0 ∨ alpha < 0 ∨ beta ≤ 0 ∨ alpha ≥ beta
  · rw [if_pos hdom, if_pos hdom]
  · rw [if_neg hdom, if_neg hdom, hawkesLogSum_eq mu alpha beta events []]
    simp only [List.nil_append]
    by_cases hex : ∃ i ∈ Finset.range events.length,
        hawkesIntensity mu alpha beta (events.take i) (events.getD i 0) ≤ 0
    · rw [if_pos hex, if_pos hex]
    · rw [if_neg hex, if_neg hex, hawkesPairSum_eq alpha beta events []]
      simp only [List.nil_append]

/-- Claim C3, counterexample to the stated closed-form integral: at the
feasible parameters `(mu, alpha, beta) = (1, 1/2, 1)` and events
`[0, 2, 3]`, the value `_negative_log_likelihood` computes differs from the
claimed `-(Σ log λ(t_i) - [mu (t_n - t_1) + Σ_j alpha (1 - exp (-beta (t_n - t_j)))])`
by `alpha * (1 - exp (-2)) ≠ 0`: the code sums the kernel terms over all
ordered pairs, the claim only over pairs ending at the last event. -/
theorem hawkes_nll_claim_counterexample :
    negativeLogLikelihood 1 (1/2) 1 [0, 2, 3] ≠
      claimedNegLogLikelihood 1 (1/2) 1 [0, 2, 3] := by
  have h2 : Real.exp (-2 : ℝ) < 1 := Real.exp_lt_one_iff.mpr (by norm_num)
  have hdom : ¬ ((1 : ℝ) ≤ 0 ∨ (1 / 2 : ℝ) < 0 ∨ (1 : ℝ) ≤ 0 ∨ (1 / 2 : ℝ) ≥ 1) := by
    norm_num
  have p0 : ¬ hawkesIntensity 1 (1/2) 1 ([] : List ℝ) 0 ≤ 0 := by
    simp only [hawkesIntensity, List.map_nil, List.sum_nil, add_zero]
    norm_num
  have p1 : ¬ hawkesIntensity 1 (1/2) 1 [0] 2 ≤ 0 := by
    simp only [hawkesIntensity, List.map_cons, List.map_nil, List.sum_cons, List.sum_nil]
    rw [not_le]
    positivity
  have p2 : ¬ hawkesIntensity 1 (1/2) 1 [0, 2] 3 ≤ 0 := by
    simp only [hawkesIntensity, List.map_cons, List.map_nil, List.sum_cons, List.sum_nil]
    rw [not_le]
    positivity
  have hls : hawkesLogSum 1 (1/2) 1 [] [0, 2, 3] =
      some (Real.log (hawkesIntensity 1 (1/2) 1 [] 0) +
        (Real.log (hawkesIntensity 1 (1/2) 1 [0] 2) +
          (Real.log (hawkesIntensity 1 (1/2) 1 [0, 2] 3) + 0))) := by
    simp only [hawkesLogSum, List.nil_append, List.singleton_append]
    rw [if_neg p0, if_neg p1, if_neg p2]
    rfl
  intro h
  have hlast : ([0, 2, 3] : List ℝ).getLastD 0 = 3 := rfl
  have hhead : ([0, 2, 3] : List ℝ).headD 0 = 0 := rfl
  rw [negativeLogLikelihood, if_neg hdom, hls] at h
  simp only [claimedNegLogLikelihood, hawkesLogSumTotal, claimedIntegral, hawkesPairSum,
    List.nil_append, List.singleton_append, List.map_cons, List.map_nil, List.sum_cons,
    List.sum_nil, hlast, hhead] at h
  rw [show ((-1 : ℝ)) * (3 - 3) = 0 by ring, Real.exp_zero] at h
  ring_nf at h
  nlinarith [h2, h]

end MuskTracker